import Mathlib

set_option maxRecDepth 4000

/-!
Verification of the `-pie-background` CSS parser in
`sources/BackgroundStyleInfo.js` (`parseCss` and `withActualBg`).

The tokenizer (`PIE.Tokenizer`) and the semantic value constructors
(`PIE.Color`, `PIE.Length`, `PIE.Angle`, `PIE.BgPosition`) are external
collaborators that are not part of this repository's source directory, so they
are modelled from the spec: a token is a type tag plus a raw value string, the
value constructors are wrappers carrying the raw text they were given, and the
token cursor is an index into a materialized token list.  `parseCss` itself is
translated line by line from `BackgroundStyleInfo.js`.
-/

/-- Token type tags produced by the tokenizer.  Modelled from the spec: the
token shape carries a `type` tag drawn from exactly this set, plus a raw
`value` string. -/
inductive TokType where
  | LENGTH
  | PERCENT
  | NUMBER
  | IDENT
  | COLOR
  | ANGLE
  | URL
  | FUNCTION
  | OPERATOR
  | CHARACTER
deriving DecidableEq, Repr

/-- A lexical token: a type tag plus the raw value string. -/
structure Token where
  type : TokType
  value : String
deriving DecidableEq, Repr

/-- Modelled from the spec: `PIE.Color` validates raw color text; the parser
only wraps the raw token text, so the model carries it unchanged. -/
structure PIEColor where
  value : String
deriving DecidableEq, Repr

/-- Modelled from the spec: `PIE.Length`, a wrapper around raw length text. -/
structure PIELength where
  value : String
deriving DecidableEq, Repr

/-- Modelled from the spec: `PIE.Angle`, a wrapper around raw angle text. -/
structure PIEAngle where
  value : String
deriving DecidableEq, Repr

/-- Modelled from the spec: `PIE.BgPosition`, built from a run of tokens. -/
structure BgPosition where
  tokens : List Token
deriving DecidableEq, Repr

/-- Result of `sizeToken`: a length value or the literal `auto`. -/
inductive SizeVal where
  | len (l : PIELength)
  | auto
deriving DecidableEq, Repr

/-- A background size: the keyword `contain`/`cover`, or a width/height pair
(`{ w: ..., h: ... }` in the source). -/
inductive BgSize where
  | keyword (s : String)
  | dims (w h : SizeVal)
deriving DecidableEq, Repr

/-- A flushed gradient color stop: `{ color: ..., offset: ... }`. -/
structure GradStop where
  color : PIEColor
  offset : Option PIELength
deriving DecidableEq, Repr

/-- The transient `stop` accumulator of the gradient sub-parser; it starts as
the empty object `{}` and is replaced wholesale by `{ color: ... }`. -/
structure StopAcc where
  color : Option PIEColor := none
  offset : Option PIELength := none
deriving DecidableEq, Repr

/-- The `gradient` accumulator (`{ stops: [], type: 'linear-gradient' }`); the
constant `type` field is implicit. -/
structure GradAcc where
  stops : List GradStop := []
  angle : Option PIEAngle := none
  gradientStart : Option BgPosition := none
deriving DecidableEq, Repr

/-- The `image` layer accumulator.  Every field is optional because the source
builds it up as a plain object; `type` is `'image'` or `'linear-gradient'`.
The gradient fields (`stops`, `angle`, `gradientStart`) appear after
`PIE.Util.merge( image, gradient )`.  `repeat_` stands for the source's
`repeat` field, which is a reserved word in Lean. -/
structure Image where
  type : Option String := none
  url : Option String := none
  repeat_ : Option String := none
  position : Option BgPosition := none
  attachment : Option String := none
  origin : Option String := none
  clip : Option String := none
  size : Option BgSize := none
  stops : Option (List GradStop) := none
  angle : Option PIEAngle := none
  gradientStart : Option BgPosition := none
deriving DecidableEq, Repr

/-- The top-level result object `props = { images: [] }` with an optional
`color` added at most once. -/
structure BgProps where
  color : Option PIEColor := none
  images : List Image := []
deriving DecidableEq, Repr

/-- Ident lookup set `attachIdents` from the source. -/
def attachIdents : List String := ["scroll", "fixed", "local"]

/-- Ident lookup set `repeatIdents` from the source. -/
def repeatIdents : List String := ["repeat-x", "repeat-y", "repeat", "no-repeat"]

/-- Ident lookup set `originIdents` from the source. -/
def originIdents : List String := ["padding-box", "border-box", "content-box"]

/-- Ident lookup set `clipIdents` from the source. -/
def clipIdents : List String := ["padding-box", "border-box"]

/-- Ident lookup set `positionIdents` from the source. -/
def positionIdents : List String := ["top", "right", "bottom", "left", "center"]

/-- Ident lookup set `sizeIdents` from the source. -/
def sizeIdents : List String := ["contain", "cover"]

/-- `isLengthOrPercent` from the source: a LENGTH token, a PERCENT token, or
the unit-less NUMBER `0`. -/
def isLengthOrPercent (t : Token) : Bool :=
  t.type == .LENGTH || t.type == .PERCENT || (t.type == .NUMBER && t.value == "0")

/-- `isBgPosToken` from the source: length/percent, or an identifier from the
`positionIdents` set. -/
def isBgPosToken (t : Token) : Bool :=
  isLengthOrPercent t || (t.type == .IDENT && positionIdents.contains t.value)

/-- `sizeToken` from the source: a `PIE.Length` when `isLengthOrPercent`
holds, the string `'auto'` when the raw value is `auto`, otherwise falsy. -/
def sizeToken (t : Token) : Option SizeVal :=
  if isLengthOrPercent t then some (.len ⟨t.value⟩)
  else if t.value == "auto" then some .auto
  else none

/-- Modelled from the spec: the net effect of the cursor pattern
`prev(); until(not-position).slice(0,-1); prev()` — the maximal contiguous run
of position-compatible tokens starting at the cursor; the cursor is left just
past the run with the terminator unconsumed. -/
def bgPosRun (ts : List Token) (i : Nat) : List Token :=
  (ts.drop i).takeWhile isBgPosToken

/-- Modelled from the spec: the lookback `tokenizer.prev()` performed after
consuming the color token at index `i`; it returns the token before that
color, i.e. the one at `i - 1`.  True when that token is NOT an operator
(the failure condition of the source's check). -/
def prevNonOperator (ts : List Token) (i : Nat) : Bool :=
  match ts[i - 1]? with
  | some p => p.type != .OPERATOR
  | none => true

/-- Lines 102-105 of the source: on reaching `)` (and on a stop separator),
the pending `stop` is pushed onto `gradient.stops` only if it has a color. -/
def flushStop (g : GradAcc) (s : StopAcc) : GradAcc :=
  match s.color with
  | some c => { g with stops := g.stops ++ [⟨c, s.offset⟩] }
  | none => g

/-- Line 107 of the source: `PIE.Util.merge( image, gradient )` — copy the
gradient accumulator's own fields onto the layer accumulator.  `image` can
carry no gradient fields of its own at this point (the gradient branch is
guarded by `!image.type`), so copying equals overwriting. -/
def mergeGrad (image : Image) (g : GradAcc) : Image :=
  { image with
    type := some "linear-gradient"
    stops := some g.stops
    angle := g.angle
    gradientStart := g.gradientStart }

/-- The gradient sub-parser: the inner `while( token = tokenizer.next() )`
loop of `parseCss` (lines 97-157).  Returns the possibly-stamped layer
accumulator and the cursor position at which the outer loop resumes.  `fuel`
is a structural bound on the number of iterations; `parseCss` supplies enough
for the cursor progress made by every iteration. -/
def gradLoop : Nat → List Token → Nat → GradAcc → StopAcc → Image → Image × Nat
  | 0, _, i, _, _, image => (image, i)
  | fuel + 1, ts, i, g, s, image =>
    match ts[i]? with
    | none => (image, i + 1)
    | some token =>
      if token.type = .CHARACTER ∧ token.value = ")" then
        -- end of the function: flush the pending stop, merge if at least 2 stops
        let g' := flushStop g s
        (if 1 < g'.stops.length then mergeGrad image g' else image, i + 1)
      else if token.type = .COLOR then
        -- color stop; with a prior angle/position the previous token must be
        -- an operator, else fail leaving the color pushed back
        if (g.angle ≠ none ∨ g.gradientStart ≠ none) ∧ prevNonOperator ts i = true then
          (image, i)
        else
          let s' : StopAcc := { color := some ⟨token.value⟩ }
          match ts[i + 1]? with
          | some t2 =>
            if isLengthOrPercent t2 then
              gradLoop fuel ts (i + 2) g { s' with offset := some ⟨t2.value⟩ } image
            else
              gradLoop fuel ts (i + 1) g s' image
          | none => gradLoop fuel ts (i + 1) g s' image
      else if token.type = .ANGLE ∧ g.angle = none ∧ s.color = none ∧ g.stops = [] then
        gradLoop fuel ts (i + 1) { g with angle := some ⟨token.value⟩ } s image
      else if isBgPosToken token = true ∧ g.gradientStart = none ∧ s.color = none ∧ g.stops = [] then
        gradLoop fuel ts (i + (bgPosRun ts i).length)
          { g with gradientStart := some ⟨bgPosRun ts i⟩ } s image
      else if token.type = .OPERATOR ∧ token.value = "," then
        match s.color with
        | some c =>
          gradLoop fuel ts (i + 1) { g with stops := g.stops ++ [⟨c, s.offset⟩] } {} image
        | none => gradLoop fuel ts (i + 1) g s image
      else
        -- unrecognized content: fail without adding the image
        (image, i + 1)

/-- The top-level layer loop of `parseCss` (lines 90-215): the outer
`while( token = tokenizer.next() )`, followed by the leftover flush
(lines 217-220).  Returns `none` exactly on the source's `return null`. -/
def bgLoop : Nat → List Token → Nat → BgProps → Image → Option BgProps
  | 0, _, _, _, _ => none
  | fuel + 1, ts, i, props, image =>
    match ts[i]? with
    | none =>
      -- stream exhausted: flush the leftover layer if it has an identity
      some { props with
             images := if image.type ≠ none then props.images ++ [image] else props.images }
    | some token =>
      if image.type = none ∧ token.type = .FUNCTION ∧ token.value = "linear-gradient(" then
        let r := gradLoop fuel ts (i + 1) {} {} image
        bgLoop fuel ts r.2 props r.1
      else if image.type = none ∧ token.type = .URL then
        bgLoop fuel ts (i + 1) props { image with url := some token.value, type := some "image" }
      else if isBgPosToken token = true ∧ image.size = none then
        bgLoop fuel ts (i + (bgPosRun ts i).length) props
          { image with position := some ⟨bgPosRun ts i⟩ }
      else if token.type = .IDENT then
        if token.value ∈ repeatIdents then
          bgLoop fuel ts (i + 1) props { image with repeat_ := some token.value }
        else if token.value ∈ originIdents then
          bgLoop fuel ts (i + 1) props
            (if token.value ∈ clipIdents then
              { image with origin := some token.value, clip := some token.value }
            else
              { image with origin := some token.value })
        else if token.value ∈ attachIdents then
          bgLoop fuel ts (i + 1) props { image with attachment := some token.value }
        else
          -- identifier matching no lookup set: silently ignored
          bgLoop fuel ts (i + 1) props image
      else if token.type = .COLOR ∧ props.color = none then
        bgLoop fuel ts (i + 1) { props with color := some ⟨token.value⟩ } image
      else if token.type = .OPERATOR then
        if token.value = "/" then
          match ts[i + 1]? with
          | none =>
            -- lookahead hit the end-of-stream sentinel: no size recorded
            bgLoop fuel ts (i + 2) props image
          | some t2 =>
            if t2.type = .IDENT ∧ t2.value ∈ sizeIdents then
              bgLoop fuel ts (i + 2) props { image with size := some (.keyword t2.value) }
            else
              match sizeToken t2 with
              | some w =>
                match ts[i + 2]? with
                | some t3 =>
                  match sizeToken t3 with
                  | some h =>
                    bgLoop fuel ts (i + 3) props { image with size := some (.dims w h) }
                  | none =>
                    -- push the token back; height defaults to the width
                    bgLoop fuel ts (i + 2) props { image with size := some (.dims w w) }
                | none => bgLoop fuel ts (i + 2) props { image with size := some (.dims w w) }
              | none =>
                -- `/` and its operand consumed with no size recorded
                bgLoop fuel ts (i + 2) props image
        else if token.value = "," ∧ image.type ≠ none then
          bgLoop fuel ts (i + 1) { props with images := props.images ++ [image] } {}
        else
          -- any other operator (or a comma before any layer content) is skipped
          bgLoop fuel ts (i + 1) props image
      else
        -- found something unrecognized; chuck everything
        none

/-- `parseCss` on the extended-property path, as a function of the token
stream (the tokenizer itself is out of scope per the spec).  Every loop
iteration advances the cursor by at least one position, so `length + 2`
iterations always suffice. -/
def parseCss (ts : List Token) : Option BgProps :=
  bgLoop (ts.length + 2) ts 0 {} {}

/-- The two override fields of `element.runtimeStyle` touched by
`withActualBg`. -/
structure RuntimeStyle where
  backgroundImage : String
  backgroundColor : String
deriving DecidableEq, Repr

/-- Outcome of calling the wrapped read function: a normal return or a raised
exception that propagates. -/
inductive JsResult (α : Type) where
  | ok (v : α)
  | exn
deriving DecidableEq, Repr

/-- `withActualBg` from the source (lines 254-268): save the two override
values, clear them, call `fn`, then write the saved values back.  The wrapped
call returns its result together with the runtime-style state it left behind;
when it raises, the exception propagates and the two assignment statements
after the call never execute — the source has no try/finally. -/
def withActualBg {α : Type} (fn : RuntimeStyle → JsResult α × RuntimeStyle)
    (rs : RuntimeStyle) : JsResult α × RuntimeStyle :=
  let rsImage := rs.backgroundImage
  let rsColor := rs.backgroundColor
  let cleared : RuntimeStyle := { backgroundImage := "", backgroundColor := "" }
  match fn cleared with
  | (.ok v, rs2) =>
    (.ok v, { rs2 with backgroundImage := rsImage, backgroundColor := rsColor })
  | (.exn, rs2) => (.exn, rs2)

/-- Shorthand tokens for concrete test inputs. -/
def lgTok : Token := ⟨.FUNCTION, "linear-gradient("⟩

def rparTok : Token := ⟨.CHARACTER, ")"⟩

def commaTok : Token := ⟨.OPERATOR, ","⟩

def slashTok : Token := ⟨.OPERATOR, "/"⟩

def urlTok (s : String) : Token := ⟨.URL, s⟩

def colorTok (s : String) : Token := ⟨.COLOR, s⟩

def lenTok (s : String) : Token := ⟨.LENGTH, s⟩

def identTok (s : String) : Token := ⟨.IDENT, s⟩

def numTok (s : String) : Token := ⟨.NUMBER, s⟩

/-- The data-model invariant claimed for gradient layers: a layer stamped as a
linear gradient carries strictly more than one stop. -/
def GradOk (img : Image) : Prop :=
  img.type = some "linear-gradient" → ∃ l, img.stops = some l ∧ 1 < l.length

/-- A wrapped read that raises: the exception propagates, leaving the
runtime-style state exactly as the read left it. -/
def throwRead : RuntimeStyle → JsResult Unit × RuntimeStyle :=
  fun rs => (.exn, rs)

/-- A wrapped read that returns normally without touching the styles. -/
def okRead : RuntimeStyle → JsResult Unit × RuntimeStyle :=
  fun rs => (.ok (), rs)

/-- The gradient layer produced by parsing `linear-gradient(red, blue)`. -/
def gradImgEx : Image :=
  { type := some "linear-gradient"
    stops := some [⟨⟨"red"⟩, none⟩, ⟨⟨"blue"⟩, none⟩] }

/-- The descriptor produced by parsing `linear-gradient(red, blue)`. -/
def gradPropsEx : BgProps := { color := none, images := [gradImgEx] }

/-! ## Helper lemmas about the token classifiers -/

@[simp] theorem isBgPosToken_color (v : String) : isBgPosToken ⟨.COLOR, v⟩ = false := rfl

@[simp] theorem isBgPosToken_url (v : String) : isBgPosToken ⟨.URL, v⟩ = false := rfl

@[simp] theorem isBgPosToken_function (v : String) : isBgPosToken ⟨.FUNCTION, v⟩ = false := rfl

@[simp] theorem isBgPosToken_operator (v : String) : isBgPosToken ⟨.OPERATOR, v⟩ = false := rfl

@[simp] theorem isBgPosToken_character (v : String) : isBgPosToken ⟨.CHARACTER, v⟩ = false := rfl

/-! ## Structural lemmas about the gradient sub-parser and the layer loop -/

/-- The gradient sub-parser either leaves the layer accumulator untouched or
stamps it by merging a gradient accumulator holding strictly more than one
stop.  This mirrors the guard on line 106 of the source. -/
theorem gradLoop_image_eq (fuel : Nat) (ts : List Token) (i : Nat)
    (g : GradAcc) (s : StopAcc) (image : Image) :
    (gradLoop fuel ts i g s image).1 = image ∨
      ∃ g', 1 < g'.stops.length ∧ (gradLoop fuel ts i g s image).1 = mergeGrad image g' := by
  induction fuel generalizing i g s with
  | zero => exact Or.inl rfl
  | succ fuel ih =>
    cases hts : ts[i]? with
    | none => simp [gradLoop, hts]
    | some token =>
      simp only [gradLoop, hts]
      by_cases h1 : token.type = .CHARACTER ∧ token.value = ")"
      · rw [if_pos h1]
        by_cases hlen : 1 < (flushStop g s).stops.length
        · exact Or.inr ⟨flushStop g s, hlen, by rw [if_pos hlen]⟩
        · rw [if_neg hlen]; exact Or.inl rfl
      · rw [if_neg h1]
        by_cases h2 : token.type = .COLOR
        · rw [if_pos h2]
          by_cases h3 : (g.angle ≠ none ∨ g.gradientStart ≠ none) ∧ prevNonOperator ts i = true
          · rw [if_pos h3]; exact Or.inl rfl
          · rw [if_neg h3]
            cases h4 : ts[i + 1]? with
            | none => exact ih ..
            | some t2 =>
              dsimp only
              by_cases h5 : isLengthOrPercent t2 = true
              · rw [if_pos h5]; exact ih ..
              · rw [if_neg h5]; exact ih ..
        · rw [if_neg h2]
          by_cases h6 : token.type = .ANGLE ∧ g.angle = none ∧ s.color = none ∧ g.stops = []
          · rw [if_pos h6]; exact ih ..
          · rw [if_neg h6]
            by_cases h7 : isBgPosToken token = true ∧ g.gradientStart = none ∧ s.color = none ∧
                g.stops = []
            · rw [if_pos h7]; exact ih ..
            · rw [if_neg h7]
              by_cases h8 : token.type = .OPERATOR ∧ token.value = ","
              · rw [if_pos h8]
                cases s.color with
                | some c => exact ih ..
                | none => exact ih ..
              · rw [if_neg h8]; exact Or.inl rfl

/-- Layer-sequence invariant of the top-level loop: if every already-flushed
layer satisfies `GradOk` and the layer in progress does too, then every layer
of a successful parse result does.  Gradient identities are stamped only via
`mergeGrad` under the more-than-one-stop guard, and no top-level branch ever
touches the `type` or `stops` fields in any other way. -/
theorem bgLoop_gradOk (fuel : Nat) (ts : List Token) :
    ∀ (i : Nat) (props : BgProps) (image : Image) (d : BgProps),
      (∀ img ∈ props.images, GradOk img) → GradOk image →
      bgLoop fuel ts i props image = some d →
      ∀ img ∈ d.images, GradOk img := by
  induction fuel with
  | zero =>
    intro i props image d _ _ h
    simp [bgLoop] at h
  | succ fuel ih =>
    intro i props image d hprops himg h
    cases hts : ts[i]? with
    | none =>
      simp only [bgLoop, hts, Option.some.injEq] at h
      subst h
      intro img hmem
      dsimp only at hmem
      by_cases him : image.type ≠ none
      · rw [if_pos him] at hmem
        rcases List.mem_append.mp hmem with hm | hm
        · exact hprops img hm
        · obtain rfl := List.mem_singleton.mp hm
          exact himg
      · rw [if_neg him] at hmem
        exact hprops img hmem
    | some token =>
      simp only [bgLoop, hts] at h
      by_cases h1 : image.type = none ∧ token.type = .FUNCTION ∧ token.value = "linear-gradient("
      · rw [if_pos h1] at h
        refine ih _ _ _ _ hprops ?_ h
        rcases gradLoop_image_eq fuel ts (i + 1) {} {} image with heq | ⟨g', hlen, heq⟩
        · rw [heq]; exact himg
        · rw [heq]
          intro _
          exact ⟨g'.stops, rfl, hlen⟩
      · rw [if_neg h1] at h
        by_cases h2 : image.type = none ∧ token.type = .URL
        · rw [if_pos h2] at h
          refine ih _ _ _ _ hprops ?_ h
          intro ht
          exact absurd ht (by simp)
        · rw [if_neg h2] at h
          by_cases h3 : isBgPosToken token = true ∧ image.size = none
          · rw [if_pos h3] at h
            refine ih _ _ _ _ ?_ ?_ h
            exacts [hprops, himg]
          · rw [if_neg h3] at h
            by_cases h4 : token.type = .IDENT
            · rw [if_pos h4] at h
              by_cases h5 : token.value ∈ repeatIdents
              · rw [if_pos h5] at h
                refine ih _ _ _ _ ?_ ?_ h
                exacts [hprops, himg]
              · rw [if_neg h5] at h
                by_cases h6 : token.value ∈ originIdents
                · rw [if_pos h6] at h
                  by_cases h7 : token.value ∈ clipIdents
                  · rw [if_pos h7] at h
                    refine ih _ _ _ _ ?_ ?_ h
                    exacts [hprops, himg]
                  · rw [if_neg h7] at h
                    refine ih _ _ _ _ ?_ ?_ h
                    exacts [hprops, himg]
                · rw [if_neg h6] at h
                  by_cases h8 : token.value ∈ attachIdents
                  · rw [if_pos h8] at h
                    refine ih _ _ _ _ ?_ ?_ h
                    exacts [hprops, himg]
                  · rw [if_neg h8] at h
                    refine ih _ _ _ _ ?_ ?_ h
                    exacts [hprops, himg]
            · rw [if_neg h4] at h
              by_cases h9 : token.type = .COLOR ∧ props.color = none
              · rw [if_pos h9] at h
                refine ih _ _ _ _ ?_ ?_ h
                exacts [hprops, himg]
              · rw [if_neg h9] at h
                by_cases h10 : token.type = .OPERATOR
                · rw [if_pos h10] at h
                  by_cases h11 : token.value = "/"
                  · rw [if_pos h11] at h
                    cases h12 : ts[i + 1]? with
                    | none =>
                      rw [h12] at h
                      refine ih _ _ _ _ ?_ ?_ h
                      exacts [hprops, himg]
                    | some t2 =>
                      rw [h12] at h
                      dsimp only at h
                      by_cases h13 : t2.type = .IDENT ∧ t2.value ∈ sizeIdents
                      · rw [if_pos h13] at h
                        refine ih _ _ _ _ ?_ ?_ h
                        exacts [hprops, himg]
                      · rw [if_neg h13] at h
                        cases h14 : sizeToken t2 with
                        | none =>
                          rw [h14] at h
                          refine ih _ _ _ _ ?_ ?_ h
                          exacts [hprops, himg]
                        | some w =>
                          rw [h14] at h
                          dsimp only at h
                          cases h15 : ts[i + 2]? with
                          | none =>
                            rw [h15] at h
                            refine ih _ _ _ _ ?_ ?_ h
                            exacts [hprops, himg]
                          | some t3 =>
                            rw [h15] at h
                            dsimp only at h
                            cases h16 : sizeToken t3 with
                            | none =>
                              rw [h16] at h
                              refine ih _ _ _ _ ?_ ?_ h
                              exacts [hprops, himg]
                            | some hgt =>
                              rw [h16] at h
                              refine ih _ _ _ _ ?_ ?_ h
                              exacts [hprops, himg]
                  · rw [if_neg h11] at h
                    by_cases h17 : token.value = "," ∧ image.type ≠ none
                    · rw [if_pos h17] at h
                      refine ih _ _ _ _ ?_ ?_ h
                      · intro img hm
                        dsimp only at hm
                        rcases List.mem_append.mp hm with hm2 | hm2
                        · exact hprops img hm2
                        · obtain rfl := List.mem_singleton.mp hm2
                          exact himg
                      · intro ht
                        exact absurd ht (by simp)
                    · rw [if_neg h17] at h
                      refine ih _ _ _ _ ?_ ?_ h
                      exacts [hprops, himg]
                · rw [if_neg h10] at h
                  simp at h

/-! ## Claim theorems -/

/-- C1 (counterexample): the claim says any operator token other than `/` and
`,` at top level makes the whole parse fail with the no-result signal; but on
`url(a.png)` followed by the operator `+` the parser returns a descriptor with
the image layer, not the failure signal. -/
theorem c1_counterexample :
    parseCss [urlTok "a.png", ⟨.OPERATOR, "+"⟩] =
      some { color := none, images := [{ url := some "a.png", type := some "image" }] } ∧
    parseCss [urlTok "a.png", ⟨.OPERATOR, "+"⟩] ≠ none := by
  constructor
  · decide
  · decide

/-- C1 (amended): a top-level token whose shape matches none of the
gradient/URL/position/identifier/color/operator branches aborts the whole
parse with the no-result signal, discarding all partial results; but an
operator token other than `/` and `,` IS matched by the operator branch, which
checks only the token type, and is silently skipped rather than failing. -/
theorem c1_top_level_strictness :
    (∀ (fuel : Nat) (ts : List Token) (i : Nat) (props : BgProps) (image : Image) (t : Token),
       ts[i]? = some t →
       ¬(image.type = none ∧ t.type = .FUNCTION ∧ t.value = "linear-gradient(") →
       ¬(image.type = none ∧ t.type = .URL) →
       ¬(isBgPosToken t = true ∧ image.size = none) →
       t.type ≠ .IDENT →
       ¬(t.type = .COLOR ∧ props.color = none) →
       t.type ≠ .OPERATOR →
       bgLoop (fuel + 1) ts i props image = none) ∧
    (∀ (fuel : Nat) (ts : List Token) (i : Nat) (props : BgProps) (image : Image) (t : Token),
       ts[i]? = some t →
       t.type = .OPERATOR →
       t.value ≠ "/" →
       ¬(t.value = "," ∧ image.type ≠ none) →
       bgLoop (fuel + 1) ts i props image = bgLoop fuel ts (i + 1) props image) := by
  constructor
  · intro fuel ts i props image t ht h1 h2 h3 h4 h5 h6
    simp only [bgLoop, ht]
    rw [if_neg h1, if_neg h2, if_neg h3, if_neg h4, if_neg h5, if_neg h6]
  · intro fuel ts i props image t ht hop hslash hcomma
    obtain ⟨ty, v⟩ := t
    dsimp only at hop hslash hcomma
    subst hop
    simp only [bgLoop, ht]
    rw [if_neg (by simp), if_neg (by simp), if_neg (by simp), if_neg (by simp),
      if_neg (by simp)]
    simp [hslash, hcomma]

/-- C1 (witness): both parts of the amended statement exercised at concrete
inputs — a bare `)` character token hard-fails, a `+` operator is skipped. -/
theorem c1_witness :
    bgLoop 1 [rparTok] 0 {} {} = none ∧
    bgLoop 1 [⟨.OPERATOR, "+"⟩] 0 {} {} = bgLoop 0 [⟨.OPERATOR, "+"⟩] 1 {} {} := by
  constructor
  · exact c1_top_level_strictness.1 0 [rparTok] 0 {} {} rparTok rfl (by decide) (by decide)
      (by decide) (by decide) (by decide) (by decide)
  · exact c1_top_level_strictness.2 0 [⟨.OPERATOR, "+"⟩] 0 {} {} ⟨.OPERATOR, "+"⟩ rfl rfl
      (by decide) (by decide)

/-- C2: `parseCss` is total — for every token stream it yields either a
descriptor or the explicit no-result value — and in particular the two
truncated inputs that force a lookahead at end-of-stream (after a gradient
stop color, and after a `/` operator) produce descriptors rather than
crashing. -/
theorem c2_total_no_crash :
    (∀ ts : List Token, parseCss ts = none ∨ ∃ d, parseCss ts = some d) ∧
    parseCss [urlTok "a.png", slashTok] =
      some { color := none, images := [{ url := some "a.png", type := some "image" }] } ∧
    parseCss [lgTok, colorTok "red"] = some { color := none, images := [] } := by
  refine ⟨fun ts => ?_, by decide, by decide⟩
  cases h : parseCss ts with
  | none => exact Or.inl rfl
  | some d => exact Or.inr ⟨d, rfl⟩

/-- C3 (counterexample): the claim says a malformed gradient only discards
its own layer while the rest of the parse continues and succeeds; but for
`linear-gradient(5), url(b.png)` the sub-parser aborts at the unrecognized
`5`, the orphaned `)` then reaches the strict top level, and the whole parse
returns the no-result signal. -/
theorem c3_counterexample :
    parseCss [lgTok, numTok "5", rparTok, commaTok, urlTok "b.png"] = none := by
  decide

/-- C3 (amended): a gradient that reaches its closing `)` with at most one
valid stop is discarded softly — the sub-parser returns with the layer
accumulator untouched and the cursor past the `)`, so parsing of the
remaining comma-separated layers continues and the overall parse succeeds
(demonstrated on `linear-gradient(red), url(b.png)`).  A grammar mismatch
inside the gradient also discards only that layer: the sub-parser aborts
mid-stream with the accumulator untouched and the outer loop resumes on the
following tokens — but those leftover gradient tokens are then subject to the
strict top-level rules, so the overall parse is not guaranteed to succeed:
it may still succeed when the leftovers happen to be consumed harmlessly
(demonstrated on `linear-gradient(x / ), url(b.png)`, where the top-level `/`
branch swallows the orphaned `)` as a failed size operand), or hard-fail when
they are not (the counterexample input). -/
theorem c3_soft_discard :
    (∀ (fuel : Nat) (ts : List Token) (i : Nat) (g : GradAcc) (s : StopAcc) (image : Image)
       (t : Token),
       ts[i]? = some t →
       t.type = .CHARACTER →
       t.value = ")" →
       (flushStop g s).stops.length ≤ 1 →
       gradLoop (fuel + 1) ts i g s image = (image, i + 1)) ∧
    (∀ (fuel : Nat) (ts : List Token) (i : Nat) (g : GradAcc) (s : StopAcc) (image : Image)
       (t : Token),
       ts[i]? = some t →
       ¬(t.type = .CHARACTER ∧ t.value = ")") →
       t.type ≠ .COLOR →
       ¬(t.type = .ANGLE ∧ g.angle = none ∧ s.color = none ∧ g.stops = []) →
       ¬(isBgPosToken t = true ∧ g.gradientStart = none ∧ s.color = none ∧ g.stops = []) →
       ¬(t.type = .OPERATOR ∧ t.value = ",") →
       gradLoop (fuel + 1) ts i g s image = (image, i + 1)) ∧
    parseCss [lgTok, colorTok "red", rparTok, commaTok, urlTok "b.png"] =
      some { color := none, images := [{ url := some "b.png", type := some "image" }] } ∧
    parseCss [lgTok, identTok "x", slashTok, rparTok, commaTok, urlTok "b.png"] =
      some { color := none, images := [{ url := some "b.png", type := some "image" }] } := by
  refine ⟨?_, ?_, by decide, by decide⟩
  · intro fuel ts i g s image t ht htc htv hlen
    simp only [gradLoop, ht]
    rw [if_pos ⟨htc, htv⟩, if_neg (by omega)]
  · intro fuel ts i g s image t ht h1 h2 h3 h4 h5
    simp only [gradLoop, ht]
    rw [if_neg h1, if_neg h2, if_neg h3, if_neg h4, if_neg h5]

/-- C3 (witness): the soft `)`-discard part applied to a bare `)` with an
empty gradient accumulator, and the mismatch-abort part applied to an
unrecognized NUMBER token. -/
theorem c3_witness :
    gradLoop 1 [rparTok] 0 {} {} {} = ({}, 1) ∧
    gradLoop 1 [numTok "5"] 0 {} {} {} = ({}, 1) :=
  ⟨c3_soft_discard.1 0 [rparTok] 0 {} {} {} rparTok rfl rfl rfl (by decide),
   c3_soft_discard.2.1 0 [numTok "5"] 0 {} {} {} (numTok "5") rfl (by decide) (by decide)
     (by decide) (by decide) (by decide)⟩

/-- C4: every gradient layer of a returned descriptor carries strictly more
than one stop, and `linear-gradient(red)` parses to a descriptor with zero
layers. -/
theorem c4_gradient_min_stops :
    (∀ (ts : List Token) (d : BgProps) (img : Image),
       parseCss ts = some d → img ∈ d.images → img.type = some "linear-gradient" →
       ∃ l, img.stops = some l ∧ 1 < l.length) ∧
    parseCss [lgTok, colorTok "red", rparTok] = some { color := none, images := [] } := by
  constructor
  · intro ts d img h hmem htype
    exact bgLoop_gradOk (ts.length + 2) ts 0 {} {} d (by simp)
      (fun ht => absurd ht (by simp)) h img hmem htype
  · decide

/-- C4 (witness): the invariant applied to the result of parsing
`linear-gradient(red, blue)`. -/
theorem c4_witness : ∃ l, gradImgEx.stops = some l ∧ 1 < l.length :=
  c4_gradient_min_stops.1 [lgTok, colorTok "red", commaTok, colorTok "blue", rparTok]
    gradPropsEx gradImgEx (by decide) (by simp [gradPropsEx]) rfl

/-- C5 (counterexample): the claim says the two runtime-style overrides are
restored on every exit path, including a raising read; but when the wrapped
read raises, `withActualBg` propagates the exception before the two restore
assignments run, leaving the cleared values in place. -/
theorem c5_counterexample :
    (withActualBg throwRead ⟨"url(x.png)", "red"⟩).2 = (⟨"", ""⟩ : RuntimeStyle) ∧
    (withActualBg throwRead ⟨"url(x.png)", "red"⟩).2 ≠ (⟨"url(x.png)", "red"⟩ : RuntimeStyle) := by
  constructor
  · decide
  · decide

/-- C5 (amended): `withActualBg` restores the saved background-image and
background-color override values when the wrapped read returns normally; when
the read raises, the restore statements are skipped and the state is left
exactly as the read left it (with the overrides cleared unless the read set
them again). -/
theorem c5_restore_on_normal_exit :
    (∀ (α : Type) (fn : RuntimeStyle → JsResult α × RuntimeStyle) (rs : RuntimeStyle)
       (v : α) (rs2 : RuntimeStyle),
       fn ⟨"", ""⟩ = (.ok v, rs2) →
       (withActualBg fn rs).2.backgroundImage = rs.backgroundImage ∧
       (withActualBg fn rs).2.backgroundColor = rs.backgroundColor) ∧
    (∀ (α : Type) (fn : RuntimeStyle → JsResult α × RuntimeStyle) (rs : RuntimeStyle)
       (rs2 : RuntimeStyle),
       fn ⟨"", ""⟩ = (.exn, rs2) →
       (withActualBg fn rs).2 = rs2) := by
  constructor
  · intro α fn rs v rs2 h
    simp [withActualBg, h]
  · intro α fn rs rs2 h
    simp [withActualBg, h]

/-- C5 (witness): the normal-return restoration at a concrete state. -/
theorem c5_witness :
    (withActualBg okRead ⟨"url(x.png)", "red"⟩).2.backgroundImage = "url(x.png)" ∧
    (withActualBg okRead ⟨"url(x.png)", "red"⟩).2.backgroundColor = "red" :=
  c5_restore_on_normal_exit.1 Unit okRead ⟨"url(x.png)", "red"⟩ () ⟨"", ""⟩ rfl

/-- C6: a bare color token at top level, with the descriptor color still
unset, is assigned to the descriptor while the layer accumulator is left
untouched; `red url(a.png)` yields descriptor color red and an image layer
with no color field of its own. -/
theorem c6_descriptor_color :
    (∀ (fuel : Nat) (ts : List Token) (i : Nat) (props : BgProps) (image : Image) (t : Token),
       ts[i]? = some t → t.type = .COLOR → props.color = none →
       bgLoop (fuel + 1) ts i props image =
         bgLoop fuel ts (i + 1) { props with color := some ⟨t.value⟩ } image) ∧
    parseCss [colorTok "red", urlTok "a.png"] =
      some { color := some ⟨"red"⟩,
             images := [{ url := some "a.png", type := some "image" }] } := by
  constructor
  · intro fuel ts i props image t ht htc hcol
    obtain ⟨ty, v⟩ := t
    dsimp only at htc
    subst htc
    simp only [bgLoop, ht]
    rw [if_neg (by simp), if_neg (by simp), if_neg (by simp), if_neg (by simp)]
    simp [hcol]
  · decide

/-- C6 (witness): the color-assignment step at a concrete input. -/
theorem c6_witness :
    bgLoop 1 [colorTok "red"] 0 {} {} =
      bgLoop 0 [colorTok "red"] 1 { color := some ⟨"red"⟩ } {} :=
  c6_descriptor_color.1 0 [colorTok "red"] 0 {} {} (colorTok "red") rfl rfl rfl

/-- C7: after a top-level `/` operator, a following `contain`/`cover`
identifier becomes the layer size; otherwise a successful `sizeToken` width
followed by a successful `sizeToken` height gives `{w, h}`, and a failing
height lookahead is pushed back with the height defaulting to the width;
`url(a.png) / 10px` yields size `{10px, 10px}`. -/
theorem c7_slash_size :
    (∀ (fuel : Nat) (ts : List Token) (i : Nat) (props : BgProps) (image : Image) (t2 : Token),
       ts[i]? = some slashTok → ts[i + 1]? = some t2 →
       t2.type = .IDENT → t2.value ∈ sizeIdents →
       bgLoop (fuel + 1) ts i props image =
         bgLoop fuel ts (i + 2) props { image with size := some (.keyword t2.value) }) ∧
    (∀ (fuel : Nat) (ts : List Token) (i : Nat) (props : BgProps) (image : Image)
       (t2 t3 : Token) (w h : SizeVal),
       ts[i]? = some slashTok → ts[i + 1]? = some t2 →
       ¬(t2.type = .IDENT ∧ t2.value ∈ sizeIdents) →
       sizeToken t2 = some w →
       ts[i + 2]? = some t3 → sizeToken t3 = some h →
       bgLoop (fuel + 1) ts i props image =
         bgLoop fuel ts (i + 3) props { image with size := some (.dims w h) }) ∧
    (∀ (fuel : Nat) (ts : List Token) (i : Nat) (props : BgProps) (image : Image)
       (t2 t3 : Token) (w : SizeVal),
       ts[i]? = some slashTok → ts[i + 1]? = some t2 →
       ¬(t2.type = .IDENT ∧ t2.value ∈ sizeIdents) →
       sizeToken t2 = some w →
       ts[i + 2]? = some t3 → sizeToken t3 = none →
       bgLoop (fuel + 1) ts i props image =
         bgLoop fuel ts (i + 2) props { image with size := some (.dims w w) }) ∧
    parseCss [urlTok "a.png", slashTok, lenTok "10px"] =
      some { color := none,
             images := [{ url := some "a.png", type := some "image",
                          size := some (.dims (.len ⟨"10px"⟩) (.len ⟨"10px"⟩)) }] } := by
  refine ⟨?_, ?_, ?_, by decide⟩
  · intro fuel ts i props image t2 ht ht2 hident hmem
    simp only [bgLoop, ht, slashTok]
    rw [if_neg (by simp), if_neg (by simp), if_neg (by simp), if_neg (by simp),
      if_neg (by simp)]
    simp [ht2, hident, hmem]
  · intro fuel ts i props image t2 t3 w h ht ht2 hnk hw ht3 hh
    simp only [bgLoop, ht, slashTok]
    rw [if_neg (by simp), if_neg (by simp), if_neg (by simp), if_neg (by simp),
      if_neg (by simp)]
    simp [ht2, hnk, hw, ht3, hh]
  · intro fuel ts i props image t2 t3 w ht ht2 hnk hw ht3 hh
    simp only [bgLoop, ht, slashTok]
    rw [if_neg (by simp), if_neg (by simp), if_neg (by simp), if_neg (by simp),
      if_neg (by simp)]
    simp [ht2, hnk, hw, ht3, hh]

/-- C7 (witness): the three `/`-handling paths applied at concrete inputs. -/
theorem c7_witness :
    bgLoop 1 [slashTok, identTok "cover"] 0 {} {} =
      bgLoop 0 [slashTok, identTok "cover"] 2 {} { size := some (.keyword "cover") } ∧
    bgLoop 1 [slashTok, lenTok "10px", lenTok "5px"] 0 {} {} =
      bgLoop 0 [slashTok, lenTok "10px", lenTok "5px"] 3 {}
        { size := some (.dims (.len ⟨"10px"⟩) (.len ⟨"5px"⟩)) } ∧
    bgLoop 1 [slashTok, lenTok "10px", urlTok "x"] 0 {} {} =
      bgLoop 0 [slashTok, lenTok "10px", urlTok "x"] 2 {}
        { size := some (.dims (.len ⟨"10px"⟩) (.len ⟨"10px"⟩)) } :=
  ⟨c7_slash_size.1 0 [slashTok, identTok "cover"] 0 {} {} (identTok "cover") rfl rfl rfl
      (by decide),
   c7_slash_size.2.1 0 [slashTok, lenTok "10px", lenTok "5px"] 0 {} {} (lenTok "10px")
      (lenTok "5px") (.len ⟨"10px"⟩) (.len ⟨"5px"⟩) rfl rfl (by decide) rfl rfl rfl,
   c7_slash_size.2.2.1 0 [slashTok, lenTok "10px", urlTok "x"] 0 {} {} (lenTok "10px")
      (urlTok "x") (.len ⟨"10px"⟩) rfl rfl (by decide) rfl rfl rfl⟩

/-- C8: inside the gradient sub-parser, once an angle or start position is
recorded, a color token is accepted only when the immediately preceding token
was a comma.  Part one: under the reachability fact that an operator
predecessor can only be a comma (part two shows any other operator aborts the
sub-parser before a color could follow it), a non-comma predecessor makes the
sub-parse fail without flushing — the layer accumulator is returned untouched
with the color token pushed back.  Part two: a non-comma operator token ends
the sub-parse immediately. -/
theorem c8_color_lookback :
    (∀ (fuel : Nat) (ts : List Token) (i : Nat) (g : GradAcc) (s : StopAcc) (image : Image)
       (c p : Token),
       ts[i]? = some c → c.type = .COLOR →
       (g.angle ≠ none ∨ g.gradientStart ≠ none) →
       ts[i - 1]? = some p →
       (p.type = .OPERATOR → p.value = ",") →
       ¬(p.type = .OPERATOR ∧ p.value = ",") →
       gradLoop (fuel + 1) ts i g s image = (image, i)) ∧
    (∀ (fuel : Nat) (ts : List Token) (j : Nat) (g : GradAcc) (s : StopAcc) (image : Image)
       (t : Token),
       ts[j]? = some t → t.type = .OPERATOR → t.value ≠ "," →
       gradLoop (fuel + 1) ts j g s image = (image, j + 1)) := by
  constructor
  · intro fuel ts i g s image c p htc hcc hset hp hinv hne
    have hpt : p.type ≠ .OPERATOR := fun hop => hne ⟨hop, hinv hop⟩
    have hprev : prevNonOperator ts i = true := by
      simp only [prevNonOperator, hp]
      exact bne_iff_ne.mpr hpt
    obtain ⟨cty, cv⟩ := c
    dsimp only at hcc
    subst hcc
    simp [gradLoop, htc, hprev, hset]
  · intro fuel ts j g s image t ht hop hnc
    obtain ⟨ty, v⟩ := t
    dsimp only at hop hnc
    subst hop
    simp [gradLoop, ht, hnc]

/-- C8 (witness): part one applied after an angle with an identifier
predecessor, part two applied to a `/` operator inside a gradient. -/
theorem c8_witness :
    gradLoop 1 [⟨.ANGLE, "45deg"⟩, colorTok "red"] 1 { angle := some ⟨"45deg"⟩ } {} {} =
      ({}, 1) ∧
    gradLoop 1 [slashTok] 0 {} {} {} = ({}, 1) :=
  ⟨c8_color_lookback.1 0 [⟨.ANGLE, "45deg"⟩, colorTok "red"] 1 { angle := some ⟨"45deg"⟩ }
      {} {} (colorTok "red") ⟨.ANGLE, "45deg"⟩ rfl rfl (Or.inl (by decide)) rfl (by decide)
      (by decide),
   c8_color_lookback.2 0 [slashTok] 0 {} {} {} slashTok rfl rfl (by decide)⟩

/-- C9: a second bare color token at top level, after the descriptor color is
already set, falls through every branch to the catch-all and the whole parse
returns the no-result signal, discarding all partial results. -/
theorem c9_second_color :
    (∀ (fuel : Nat) (ts : List Token) (i : Nat) (props : BgProps) (image : Image)
       (t : Token) (c : PIEColor),
       ts[i]? = some t → t.type = .COLOR → props.color = some c →
       bgLoop (fuel + 1) ts i props image = none) ∧
    parseCss [colorTok "red", colorTok "blue"] = none := by
  constructor
  · intro fuel ts i props image t c ht htc hcol
    obtain ⟨ty, v⟩ := t
    dsimp only at htc
    subst htc
    simp [bgLoop, ht, hcol]
  · decide

/-- C9 (witness): the hard failure at a concrete second color. -/
theorem c9_witness :
    bgLoop 1 [colorTok "blue"] 0 { color := some ⟨"red"⟩ } {} = none :=
  c9_second_color.1 0 [colorTok "blue"] 0 { color := some ⟨"red"⟩ } {} (colorTok "blue")
    ⟨"red"⟩ rfl rfl rfl

/-- C10: a URL token or a `linear-gradient(` function token arriving while
the layer accumulator already has an identity (and no comma has reset it)
matches no branch — both identity-stamping branches require the accumulator
to be identity-less — so the whole parse returns the no-result signal. -/
theorem c10_identity_conflict :
    (∀ (fuel : Nat) (ts : List Token) (i : Nat) (props : BgProps) (image : Image)
       (t : Token) (ty : String),
       ts[i]? = some t → image.type = some ty → t.type = .URL →
       bgLoop (fuel + 1) ts i props image = none) ∧
    (∀ (fuel : Nat) (ts : List Token) (i : Nat) (props : BgProps) (image : Image)
       (t : Token) (ty : String),
       ts[i]? = some t → image.type = some ty →
       t.type = .FUNCTION → t.value = "linear-gradient(" →
       bgLoop (fuel + 1) ts i props image = none) ∧
    parseCss [urlTok "a", urlTok "b"] = none ∧
    parseCss [urlTok "a", lgTok] = none := by
  refine ⟨?_, ?_, by decide, by decide⟩
  · intro fuel ts i props image t ty ht himg htu
    obtain ⟨tty, v⟩ := t
    dsimp only at htu
    subst htu
    simp [bgLoop, ht, himg]
  · intro fuel ts i props image t ty ht himg htf htv
    obtain ⟨tty, v⟩ := t
    dsimp only at htf htv
    subst htf
    subst htv
    simp [bgLoop, ht, himg]

/-- C10 (witness): both identity-conflict steps at concrete inputs. -/
theorem c10_witness :
    bgLoop 1 [urlTok "b"] 0 {} { type := some "image" } = none ∧
    bgLoop 1 [lgTok] 0 {} { type := some "image" } = none :=
  ⟨c10_identity_conflict.1 0 [urlTok "b"] 0 {} { type := some "image" } (urlTok "b")
      "image" rfl rfl rfl,
   c10_identity_conflict.2.1 0 [lgTok] 0 {} { type := some "image" } lgTok "image" rfl rfl
      rfl rfl⟩
